import Mathlib

/-!
Shallow embedding of the `balls` repository (src/app.rs, src/main.rs):
an interactive 2D physics toy.  `f32` scalars are modelled as real
numbers (exact arithmetic); `Vec<Ball>` as `List Ball`; the per-frame
`update` of the `EventHandler` impl as a pure state transition, with its
four in-place index loops rendered as folds over `List.range`.  The
trigonometric combination `cos (atan2 dy dx)` in `Ball::move_from` is
rendered by the exact identity `cos (atan2 dy dx) = dx / sqrt (dx^2 + dy^2)`
(and `sin (atan2 dy dx) = dy / sqrt (dx^2 + dy^2)`), valid for
`(dx, dy) ≠ (0, 0)`; at `(0, 0)` Rust's `atan2` returns `0`, so
`cos = 1`, `sin = 0`, which the definition branches on explicitly.
Randomness (`rand::thread_rng`) is modelled by passing the drawn values
explicitly: a `RandBall` record holds one draw of `Ball::new_random`,
with the range constraints of `gen_range` captured by `RandBall.inRange`.
-/

noncomputable section

/-- Real 2D point, from `ggez::mint::Point2<f32>` (also used for `Vector2`). -/
structure Point2 where
  x : ℝ
  y : ℝ

/-- One circular body; fields as in `struct Ball` in src/app.rs. -/
structure Ball where
  point : Point2
  radius : ℝ
  velocity : Point2
  color : ℕ

/-- Default ball used as the out-of-range value of list indexing. -/
def defaultBall : Ball := ⟨⟨0, 0⟩, 0, ⟨0, 0⟩, 0⟩

/-- Total indexing into the ball list (the Rust code only indexes in bounds). -/
def getB (l : List Ball) (i : ℕ) : Ball := (l[i]?).getD defaultBall

/-- Embedding of `Ball::new`. -/
def Ball.new (x y radius : ℝ) (color : ℕ) : Ball :=
  { point := ⟨x, y⟩, radius := radius, velocity := ⟨0, 0⟩, color := color }

/-- One draw of the random values consumed by `Ball::new_random`. -/
structure RandBall where
  radius : ℝ
  x : ℝ
  y : ℝ
  color : ℕ

/-- Range constraints of the `gen_range` calls in `Ball::new_random`:
`radius ∈ [10, 50)`, `x ∈ [radius, width − radius)`, `y ∈ [radius, height − radius)`. -/
def RandBall.inRange (g : RandBall) (width height : ℝ) : Prop :=
  10 ≤ g.radius ∧ g.radius < 50 ∧
  g.radius ≤ g.x ∧ g.x < width - g.radius ∧
  g.radius ≤ g.y ∧ g.y < height - g.radius

/-- Embedding of `Ball::new_random`, applied to an explicit draw. -/
def Ball.new_random (g : RandBall) : Ball := Ball.new g.x g.y g.radius g.color

/-- Embedding of `Ball::collides`. -/
def Ball.collides (self other : Ball) : Prop :=
  let dx := self.point.x - other.point.x
  let dy := self.point.y - other.point.y
  let dist := Real.sqrt (dx ^ 2 + dy ^ 2)
  dist ≤ self.radius + other.radius

/-- Embedding of `Ball::collides_point`. -/
def Ball.collides_point (self : Ball) (p : Point2) : Prop :=
  let dx := self.point.x - p.x
  let dy := self.point.y - p.y
  let dist := Real.sqrt (dx ^ 2 + dy ^ 2)
  dist ≤ self.radius

/-- Embedding of `Ball::get_bounce_amount`: `1.0 / (radius * 0.05).max(1.0)`. -/
def Ball.get_bounce_amount (self : Ball) : ℝ :=
  1 / max (self.radius * 0.05) 1

open Classical in
/-- Embedding of `Ball::move_from`.  `angle = dy.atan2 dx` appears only
through `cos angle` and `sin angle`, rendered as `dx / dist` and
`dy / dist` for `(dx, dy) ≠ (0, 0)` and as `1` and `0` at the origin
(`atan2 0 0 = 0` in Rust). -/
def Ball.move_from (self other : Ball) : Ball :=
  let bounce : ℝ := 0.05
  let jump : ℝ := 0.6
  let dx := self.point.x - other.point.x
  let dy := self.point.y - other.point.y
  let dist := Real.sqrt (dx ^ 2 + dy ^ 2)
  let cosAngle := if dx = 0 ∧ dy = 0 then 1 else dx / dist
  let sinAngle := if dx = 0 ∧ dy = 0 then 0 else dy / dist
  let force := self.radius + other.radius - dist
  let x := cosAngle * force
  let y := sinAngle * force
  { self with
    velocity := ⟨self.velocity.x + x * bounce * self.get_bounce_amount,
                 self.velocity.y + y * bounce * self.get_bounce_amount⟩,
    point := ⟨self.point.x + x * jump, self.point.y + y * jump⟩ }

/-- Application state, from `struct App`: the ball list and the optional
active (dragged) ball, an index paired with the grab offset. -/
structure App where
  balls : List Ball
  active_ball : Option (ℕ × Point2)

/-- Embedding of `App::is_active_ball`. -/
def isActiveBall (a : Option (ℕ × Point2)) (i : ℕ) : Bool :=
  match a with
  | some p => p.1 == i
  | none => false

/-- Embedding of `sort_balls_by_size`: stable sort largest-to-smallest by
radius (`sort_by(|a, b| b.radius.partial_cmp(&a.radius))`). -/
def sort_balls_by_size (l : List Ball) : List Ball :=
  l.mergeSort (fun a b => decide (b.radius ≤ a.radius))

/-- Embedding of `App::new`: push 10 random balls, then sort by size.
The 10 random draws are passed explicitly. -/
def App.new (gs : Fin 10 → RandBall) : App :=
  { balls := sort_balls_by_size ((List.ofFn gs).map Ball.new_random),
    active_ball := none }

/-- Embedding of `App::reset`: `*self = Self::new(ctx)`. -/
def App.reset (gs : Fin 10 → RandBall) (_s : App) : App := App.new gs

/-- Embedding of `App::move_active_ball`. -/
def App.move_active_ball (s : App) (x y vx vy : ℝ) : App :=
  match s.active_ball with
  | some (i, off) =>
      let b := getB s.balls i
      let b2 := { b with point := ⟨x - off.x, y - off.y⟩,
                         velocity := (⟨vx, vy⟩ : Point2) }
      { s with balls := s.balls.set i b2 }
  | none => s

/-- Embedding of `App::add_ball`: push, then sort by size. -/
def App.add_ball (s : App) (b : Ball) : App :=
  { s with balls := sort_balls_by_size (s.balls ++ [b]) }

/-- Generic in-place loop `for i in 0..balls.len()` whose body either skips
index `i` or overwrites `balls[i]` with a function of `balls[i]` alone. -/
def idxLoop (skip : ℕ → Bool) (g : Ball → Ball) (l : List Ball) : List Ball :=
  (List.range l.length).foldl
    (fun l' i => if skip i then l' else l'.set i (g (getB l' i))) l

open Classical in
/-- Gravity loop of `update` (src/app.rs lines 134-142): every non-active
ball strictly above the floor gets `velocity.y += 0.5`. -/
def gravityPhase (height : ℝ) (a : Option (ℕ × Point2)) (l : List Ball) : List Ball :=
  idxLoop (isActiveBall a)
    (fun b => if b.point.y + b.radius < height then
        { b with velocity := ⟨b.velocity.x, b.velocity.y + 0.5⟩ }
      else b) l

/-- Integration loop of `update` (lines 144-151): every non-active ball
moves by its velocity. -/
def integratePhase (a : Option (ℕ × Point2)) (l : List Ball) : List Ball :=
  idxLoop (isActiveBall a)
    (fun b => { b with point := ⟨b.point.x + b.velocity.x, b.point.y + b.velocity.y⟩ }) l

open Classical in
/-- Body of the inner collision loop of `update` (lines 157-168): for
`j ≠ i`, if ball `i` collides with ball `j`, ball `i` is moved away. -/
def collideOne (l : List Ball) (i j : ℕ) : List Ball :=
  if i = j then l
  else
    let ball := getB l i
    let other := getB l j
    if ball.collides other then l.set i (ball.move_from other) else l

/-- Pairwise collision resolution loop of `update` (lines 153-169): the
outer loop skips the active ball; the inner loop runs over all indices. -/
def collisionPhase (a : Option (ℕ × Point2)) (l : List Ball) : List Ball :=
  (List.range l.length).foldl
    (fun l' i =>
      if isActiveBall a i then l'
      else (List.range l'.length).foldl (fun l'' j => collideOne l'' i j) l') l

open Classical in
/-- Boundary handling of `update` for one ball (lines 171-185): clamp to
the side walls and the floor, reflecting the velocity component by
`-bounce_amount * get_bounce_amount` on each clamp.  Applied to every
ball, active or not. -/
def clampBall (width height : ℝ) (b : Ball) : Ball :=
  let bounce_amount : ℝ := 0.5
  let b1 :=
    if b.point.x - b.radius < 0 then
      { b with point := ⟨b.radius, b.point.y⟩,
               velocity := ⟨b.velocity.x * (-bounce_amount * b.get_bounce_amount),
                            b.velocity.y⟩ }
    else b
  let b2 :=
    if b1.point.x + b1.radius ≥ width then
      { b1 with point := ⟨width - b1.radius, b1.point.y⟩,
                velocity := ⟨b1.velocity.x * (-bounce_amount * b1.get_bounce_amount),
                             b1.velocity.y⟩ }
    else b1
  if b2.point.y + b2.radius ≥ height then
    { b2 with point := ⟨b2.point.x, height - b2.radius⟩,
              velocity := ⟨b2.velocity.x,
                           b2.velocity.y * (-bounce_amount * b2.get_bounce_amount)⟩ }
  else b2

/-- Boundary collision loop of `update` (lines 171-185). -/
def boundaryPhase (width height : ℝ) (l : List Ball) : List Ball :=
  l.map (clampBall width height)

/-- Embedding of `EventHandler::update`: gravity, integration, pairwise
collision, boundary clamping, in that order. -/
def App.update (width height : ℝ) (s : App) : App :=
  let l1 := gravityPhase height s.active_ball s.balls
  let l2 := integratePhase s.active_ball l1
  let l3 := collisionPhase s.active_ball l2
  { s with balls := boundaryPhase width height l3 }

open Classical in
/-- The reverse index scan of `mouse_button_down_event` (lines 231-244):
`ball_at_aux P n` returns the largest `i < n` with `P i`, scanning from
`n − 1` downward, or `none`. -/
def ball_at_aux (P : ℕ → Prop) : ℕ → Option ℕ
  | 0 => none
  | n + 1 => if P n then some n else ball_at_aux P n

/-- Hit test of `mouse_button_down_event`: the last ball in list order
whose circle contains the point (the loop runs over indices in reverse
and takes the first hit). -/
def ball_at (l : List Ball) (x y : ℝ) : Option ℕ :=
  ball_at_aux (fun i => (getB l i).collides_point ⟨x, y⟩) l.length

/-- Embedding of `EventHandler::mouse_button_down_event`: if no ball is
active, grab the hit ball, storing the grab offset, and snap it via
`move_active_ball(x, y, 0, 0)`. -/
def App.mouse_button_down (s : App) (x y : ℝ) : App :=
  if s.active_ball.isSome then s
  else
    match ball_at s.balls x y with
    | none => s
    | some i =>
        let b := getB s.balls i
        let s1 := { s with active_ball := some (i, (⟨x - b.point.x, y - b.point.y⟩ : Point2)) }
        s1.move_active_ball x y 0 0

/-- Embedding of `EventHandler::mouse_button_up_event`: unconditionally
clear the active ball. -/
def App.mouse_button_up (s : App) : App :=
  { s with active_ball := none }

/-- Embedding of `EventHandler::mouse_motion_event`. -/
def App.mouse_motion (s : App) (x y dx dy : ℝ) : App :=
  s.move_active_ball x y dx dy

/-- Embedding of the `VirtualKeyCode::X` arm of `key_down_event`
(lines 279-283): if a ball is active, remove it from the list.  Note the
source does NOT clear `active_ball` here; `Vec::remove` is rendered by
the total `List.eraseIdx` (the index is in bounds in the scenarios
considered; out of bounds the Rust code panics). -/
def App.key_x (s : App) : App :=
  match s.active_ball with
  | some (i, _) => { s with balls := s.balls.eraseIdx i }
  | none => s

/-- Embedding of the `VirtualKeyCode::Space` arm of `key_down_event`:
spawn one random ball (draw passed explicitly) and insert it. -/
def App.key_space (s : App) (g : RandBall) : App :=
  s.add_ball (Ball.new_random g)

/-- Embedding of the `VirtualKeyCode::R` arm of `key_down_event`. -/
def App.key_r (s : App) (gs : Fin 10 → RandBall) : App :=
  s.reset gs

/-- Sortedness predicate of the claims: the list is ordered
largest-to-smallest by radius. -/
def sortedBySize (l : List Ball) : Prop :=
  l.Pairwise (fun a b => b.radius ≤ a.radius)

end

/-! General lemmas about the embedding. -/

section Lemmas

lemma getB_set (l : List Ball) (i : ℕ) (b : Ball) (k : ℕ) :
    getB (l.set i b) k = if k = i ∧ i < l.length then b else getB l k := by
  unfold getB
  rw [List.getElem?_set]
  by_cases h1 : i = k
  · subst h1
    by_cases h2 : i < l.length
    · simp [h2]
    · simp [h2, List.getElem?_eq_none (Nat.le_of_not_lt h2)]
  · have h1k : ¬(k = i) := fun hh => h1 hh.symm
    simp [h1, h1k]

lemma getB_set_ne (l : List Ball) (i : ℕ) (b : Ball) (k : ℕ) (h : k ≠ i) :
    getB (l.set i b) k = getB l k := by
  rw [getB_set]; simp [h]

@[simp] lemma move_from_radius (b o : Ball) : (b.move_from o).radius = b.radius := rfl

@[simp] lemma move_from_color (b o : Ball) : (b.move_from o).color = b.color := rfl

@[simp] lemma get_bounce_amount_pos (b : Ball) : 0 < b.get_bounce_amount := by
  unfold Ball.get_bounce_amount
  have h : (0:ℝ) < max (b.radius * 0.05) 1 := lt_max_of_lt_right one_pos
  positivity

lemma clampBall_radius (w h : ℝ) (b : Ball) : (clampBall w h b).radius = b.radius := by
  simp only [clampBall]
  split_ifs <;> rfl

lemma clampBall_color (w h : ℝ) (b : Ball) : (clampBall w h b).color = b.color := by
  simp only [clampBall]
  split_ifs <;> rfl

lemma idxLoop_spec (skip : ℕ → Bool) (g : Ball → Ball) (l : List Ball) :
    (idxLoop skip g l).length = l.length ∧
    ∀ k, getB (idxLoop skip g l) k =
      if k < l.length ∧ skip k = false then g (getB l k) else getB l k := by
  unfold idxLoop
  suffices H : ∀ n, n ≤ l.length →
      ((List.range n).foldl
        (fun l' i => if skip i then l' else l'.set i (g (getB l' i))) l).length = l.length ∧
      ∀ k, getB ((List.range n).foldl
        (fun l' i => if skip i then l' else l'.set i (g (getB l' i))) l) k =
        if k < n ∧ skip k = false then g (getB l k) else getB l k by
    exact H l.length le_rfl
  intro n hn
  induction n with
  | zero => simp [List.range_zero]
  | succ m ih =>
    have hm : m ≤ l.length := Nat.le_of_succ_le hn
    obtain ⟨ihlen, ihget⟩ := ih hm
    set L := (List.range m).foldl
      (fun l' i => if skip i then l' else l'.set i (g (getB l' i))) l with hL
    rw [List.range_succ, List.foldl_append]
    simp only [List.foldl_cons, List.foldl_nil]
    have hLm : getB L m = getB l m := by
      rw [ihget m]; simp
    by_cases hs : skip m
    · rw [if_pos hs]
      refine ⟨ihlen, fun k => ?_⟩
      rw [ihget k]
      by_cases hk : k = m
      · subst hk; simp [hs]
      · have : (k < m + 1 ∧ skip k = false) ↔ (k < m ∧ skip k = false) := by
          constructor
          · rintro ⟨h1, h2⟩; exact ⟨Nat.lt_of_le_of_ne (Nat.lt_succ_iff.mp h1) hk, h2⟩
          · rintro ⟨h1, h2⟩; exact ⟨Nat.lt_succ_of_lt h1, h2⟩
        rw [if_congr this rfl rfl]
    · rw [if_neg hs]
      have hmL : m < L.length := by rw [ihlen]; exact hn
      refine ⟨by rw [List.length_set, ihlen], fun k => ?_⟩
      rw [getB_set]
      by_cases hk : k = m
      · subst hk
        have hthis : k < k + 1 ∧ skip k = false := ⟨Nat.lt_succ_self k, Bool.eq_false_iff.mpr hs⟩
        rw [if_pos ⟨rfl, hmL⟩, hLm, if_pos hthis]
      · rw [if_neg (by simp [hk]), ihget k]
        have : (k < m + 1 ∧ skip k = false) ↔ (k < m ∧ skip k = false) := by
          constructor
          · rintro ⟨h1, h2⟩; exact ⟨Nat.lt_of_le_of_ne (Nat.lt_succ_iff.mp h1) hk, h2⟩
          · rintro ⟨h1, h2⟩; exact ⟨Nat.lt_succ_of_lt h1, h2⟩
        rw [if_congr this rfl rfl]

lemma gravityPhase_length (h : ℝ) (a : Option (ℕ × Point2)) (l : List Ball) :
    (gravityPhase h a l).length = l.length := (idxLoop_spec _ _ l).1

lemma getB_gravityPhase (h : ℝ) (a : Option (ℕ × Point2)) (l : List Ball) (k : ℕ) :
    getB (gravityPhase h a l) k =
      if k < l.length ∧ isActiveBall a k = false then
        (if (getB l k).point.y + (getB l k).radius < h then
          { getB l k with velocity := ⟨(getB l k).velocity.x, (getB l k).velocity.y + 0.5⟩ }
        else getB l k)
      else getB l k := (idxLoop_spec _ _ l).2 k

lemma integratePhase_length (a : Option (ℕ × Point2)) (l : List Ball) :
    (integratePhase a l).length = l.length := (idxLoop_spec _ _ l).1

lemma getB_integratePhase (a : Option (ℕ × Point2)) (l : List Ball) (k : ℕ) :
    getB (integratePhase a l) k =
      if k < l.length ∧ isActiveBall a k = false then
        { getB l k with point := ⟨(getB l k).point.x + (getB l k).velocity.x,
                                  (getB l k).point.y + (getB l k).velocity.y⟩ }
      else getB l k := (idxLoop_spec _ _ l).2 k

end Lemmas

section PhaseLemmas

lemma activeBall_ne (a : Option (ℕ × Point2)) {i k : ℕ}
    (hk : isActiveBall a k = true) (hi : isActiveBall a i = false) : k ≠ i := by
  cases a with
  | none => simp [isActiveBall] at hk
  | some p =>
    obtain ⟨m, off⟩ := p
    have hk2 : m = k := by simpa [isActiveBall] using hk
    have hi2 : ¬(m = i) := by simpa [isActiveBall] using hi
    omega

lemma collideOne_spec (l : List Ball) (i j : ℕ) :
    (collideOne l i j).length = l.length ∧
    (∀ k, k ≠ i → getB (collideOne l i j) k = getB l k) ∧
    (getB (collideOne l i j) i).radius = (getB l i).radius ∧
    (getB (collideOne l i j) i).color = (getB l i).color := by
  simp only [collideOne]
  split_ifs with h1 h2
  · exact ⟨rfl, fun k _ => rfl, rfl, rfl⟩
  · refine ⟨List.length_set l i _, fun k hk => getB_set_ne _ _ _ _ hk, ?_, ?_⟩ <;>
    · rw [getB_set]
      by_cases hi : i < l.length
      · rw [if_pos ⟨rfl, hi⟩]; simp
      · rw [if_neg (by simp [hi])]
  · exact ⟨rfl, fun k _ => rfl, rfl, rfl⟩

lemma innerLoop_spec (i : ℕ) (js : List ℕ) :
    ∀ (l : List Ball),
    (js.foldl (fun l'' j => collideOne l'' i j) l).length = l.length ∧
    (∀ k, k ≠ i → getB (js.foldl (fun l'' j => collideOne l'' i j) l) k = getB l k) ∧
    (getB (js.foldl (fun l'' j => collideOne l'' i j) l) i).radius = (getB l i).radius ∧
    (getB (js.foldl (fun l'' j => collideOne l'' i j) l) i).color = (getB l i).color := by
  induction js with
  | nil => exact fun l => ⟨rfl, fun k _ => rfl, rfl, rfl⟩
  | cons j js ih =>
    intro l
    obtain ⟨slen, sne, srad, scol⟩ := collideOne_spec l i j
    obtain ⟨ilen, ine, irad, icol⟩ := ih (collideOne l i j)
    simp only [List.foldl_cons]
    refine ⟨by rw [ilen, slen], fun k hk => by rw [ine k hk, sne k hk], ?_, ?_⟩
    · rw [irad, srad]
    · rw [icol, scol]

lemma collisionOuter_spec (a : Option (ℕ × Point2)) (is : List ℕ) :
    ∀ (l : List Ball),
    ((is.foldl (fun l' i =>
      if isActiveBall a i then l'
      else (List.range l'.length).foldl (fun l'' j => collideOne l'' i j) l') l).length
        = l.length) ∧
    (∀ k, (getB (is.foldl (fun l' i =>
      if isActiveBall a i then l'
      else (List.range l'.length).foldl (fun l'' j => collideOne l'' i j) l') l) k).radius
        = (getB l k).radius ∧
      (getB (is.foldl (fun l' i =>
      if isActiveBall a i then l'
      else (List.range l'.length).foldl (fun l'' j => collideOne l'' i j) l') l) k).color
        = (getB l k).color) ∧
    (∀ k, isActiveBall a k = true → getB (is.foldl (fun l' i =>
      if isActiveBall a i then l'
      else (List.range l'.length).foldl (fun l'' j => collideOne l'' i j) l') l) k
        = getB l k) := by
  induction is with
  | nil => exact fun l => ⟨rfl, fun k => ⟨rfl, rfl⟩, fun k _ => rfl⟩
  | cons i is ih =>
    intro l
    simp only [List.foldl_cons]
    set s1 := (if isActiveBall a i then l
      else (List.range l.length).foldl (fun l'' j => collideOne l'' i j) l) with hs1
    have step : s1.length = l.length ∧
        (∀ k, (getB s1 k).radius = (getB l k).radius ∧ (getB s1 k).color = (getB l k).color) ∧
        (∀ k, isActiveBall a k = true → getB s1 k = getB l k) := by
      rw [hs1]
      by_cases ha : isActiveBall a i
      · rw [if_pos ha]
        exact ⟨rfl, fun k => ⟨rfl, rfl⟩, fun k _ => rfl⟩
      · rw [if_neg (by simp [ha])]
        obtain ⟨ilen, ine, irad, icol⟩ := innerLoop_spec i (List.range l.length) l
        refine ⟨ilen, fun k => ?_, fun k hk => ?_⟩
        · by_cases hk : k = i
          · subst hk; exact ⟨irad, icol⟩
          · rw [ine k hk]; exact ⟨rfl, rfl⟩
        · exact ine k (activeBall_ne a hk (Bool.eq_false_iff.mpr ha))
    obtain ⟨slen, srad, sact⟩ := step
    obtain ⟨ilen2, irad2, iact2⟩ := ih s1
    refine ⟨by rw [ilen2, slen], fun k => ?_, fun k hk => ?_⟩
    · obtain ⟨r1, c1⟩ := irad2 k
      obtain ⟨r2, c2⟩ := srad k
      exact ⟨by rw [r1, r2], by rw [c1, c2]⟩
    · rw [iact2 k hk, sact k hk]

lemma collisionPhase_length (a : Option (ℕ × Point2)) (l : List Ball) :
    (collisionPhase a l).length = l.length := (collisionOuter_spec a (List.range l.length) l).1

lemma collisionPhase_radius_color (a : Option (ℕ × Point2)) (l : List Ball) (k : ℕ) :
    (getB (collisionPhase a l) k).radius = (getB l k).radius ∧
    (getB (collisionPhase a l) k).color = (getB l k).color :=
  (collisionOuter_spec a (List.range l.length) l).2.1 k

lemma collisionPhase_active (a : Option (ℕ × Point2)) (l : List Ball) (k : ℕ)
    (hk : isActiveBall a k = true) :
    getB (collisionPhase a l) k = getB l k :=
  (collisionOuter_spec a (List.range l.length) l).2.2 k hk

lemma boundaryPhase_length (w h : ℝ) (l : List Ball) :
    (boundaryPhase w h l).length = l.length := List.length_map l _

lemma getB_boundaryPhase (w h : ℝ) (l : List Ball) (k : ℕ) (hk : k < l.length) :
    getB (boundaryPhase w h l) k = clampBall w h (getB l k) := by
  unfold boundaryPhase getB
  rw [List.getElem?_map, List.getElem?_eq_getElem hk]
  rfl

end PhaseLemmas

section ClampLemmas

lemma clampBall_eq_self (w h : ℝ) (b : Ball)
    (h1 : ¬ b.point.x - b.radius < 0)
    (h2 : ¬ b.point.x + b.radius ≥ w)
    (h3 : ¬ b.point.y + b.radius ≥ h) :
    clampBall w h b = b := by
  simp only [clampBall]
  rw [if_neg h1, if_neg h2, if_neg h3]

lemma clampBall_bounds (w h : ℝ) (b : Ball) (hw : 2 * b.radius ≤ w) :
    b.radius ≤ (clampBall w h b).point.x ∧
    (clampBall w h b).point.x ≤ w - b.radius ∧
    (clampBall w h b).point.y ≤ h - b.radius := by
  simp only [clampBall]
  split_ifs with h1 h2 h3 h3 h2 h3 h3 <;>
    refine ⟨?_, ?_, ?_⟩ <;> dsimp only at * <;> linarith

lemma clampBall_y_floor (w h : ℝ) (b : Ball) (hy : b.point.y + b.radius ≥ h) :
    (clampBall w h b).point.y = h - b.radius ∧
    (clampBall w h b).velocity.y = b.velocity.y * (-(0.5) * b.get_bounce_amount) := by
  simp only [clampBall]
  split_ifs with h1 h2 h3 h3 h2 h3 h3 <;>
    first
      | (exact ⟨rfl, rfl⟩)
      | (dsimp only at h3; exact absurd hy h3)
      | (refine ⟨rfl, ?_⟩; dsimp only; rw [Ball.get_bounce_amount])

end ClampLemmas

section ScanSortLemmas

lemma ball_at_aux_none (P : ℕ → Prop) :
    ∀ n, ball_at_aux P n = none ↔ ∀ i, i < n → ¬ P i := by
  intro n
  induction n with
  | zero => simp [ball_at_aux]
  | succ m ih =>
    unfold ball_at_aux
    by_cases h : P m
    · rw [if_pos h]
      simp only [reduceCtorEq, false_iff]
      intro hall
      exact hall m (Nat.lt_succ_self m) h
    · rw [if_neg h, ih]
      constructor
      · intro hall i hi
        rcases Nat.lt_succ_iff_lt_or_eq.mp hi with hlt | heq
        · exact hall i hlt
        · subst heq; exact h
      · intro hall i hi
        exact hall i (Nat.lt_succ_of_lt hi)

lemma ball_at_aux_some (P : ℕ → Prop) :
    ∀ n i, ball_at_aux P n = some i →
      i < n ∧ P i ∧ ∀ j, i < j → j < n → ¬ P j := by
  intro n
  induction n with
  | zero => intro i h; simp [ball_at_aux] at h
  | succ m ih =>
    intro i h
    unfold ball_at_aux at h
    by_cases hp : P m
    · rw [if_pos hp] at h
      have hmi : m = i := by injection h
      subst hmi
      exact ⟨Nat.lt_succ_self m, hp, fun j hj1 hj2 => absurd hj2 (by omega)⟩
    · rw [if_neg hp] at h
      obtain ⟨h1, h2, h3⟩ := ih i h
      refine ⟨Nat.lt_succ_of_lt h1, h2, fun j hj1 hj2 => ?_⟩
      rcases Nat.lt_succ_iff_lt_or_eq.mp hj2 with hlt | heq
      · exact h3 j hj1 hlt
      · subst heq; exact hp

lemma sorted_sort_balls_by_size (l : List Ball) :
    sortedBySize (sort_balls_by_size l) := by
  have htrans : ∀ a b c : Ball,
      (fun a b : Ball => decide (b.radius ≤ a.radius)) a b = true →
      (fun a b : Ball => decide (b.radius ≤ a.radius)) b c = true →
      (fun a b : Ball => decide (b.radius ≤ a.radius)) a c = true := by
    intro a b c hab hbc
    simp only [decide_eq_true_eq] at hab hbc ⊢
    exact le_trans hbc hab
  have htot : ∀ a b : Ball,
      ((fun a b : Ball => decide (b.radius ≤ a.radius)) a b ||
       (fun a b : Ball => decide (b.radius ≤ a.radius)) b a) = true := by
    intro a b
    simp only [Bool.or_eq_true, decide_eq_true_eq]
    exact le_total b.radius a.radius
  have hp := List.sorted_mergeSort htrans htot l
  unfold sortedBySize sort_balls_by_size
  exact hp.imp (fun hab => of_decide_eq_true hab)

lemma sortedBySize_eraseIdx (l : List Ball) (i : ℕ) (h : sortedBySize l) :
    sortedBySize (l.eraseIdx i) :=
  List.Pairwise.sublist (List.eraseIdx_sublist l i) h

lemma mem_sort_balls_by_size (l : List Ball) (b : Ball) :
    b ∈ sort_balls_by_size l ↔ b ∈ l := List.mem_mergeSort

lemma length_sort_balls_by_size (l : List Ball) :
    (sort_balls_by_size l).length = l.length := List.length_mergeSort l

end ScanSortLemmas

section UpdateLemmas

lemma getB_oob (l : List Ball) (k : ℕ) (hk : l.length ≤ k) : getB l k = defaultBall := by
  unfold getB
  rw [List.getElem?_eq_none hk]
  rfl

lemma getB_singleton (b : Ball) : getB [b] 0 = b := rfl

lemma list_eq_singleton (l : List Ball) (hl : l.length = 1) : l = [getB l 0] := by
  cases l with
  | nil => simp at hl
  | cons b t =>
    cases t with
    | nil => rfl
    | cons b2 t2 => simp at hl

lemma update_length (w h : ℝ) (s : App) :
    (App.update w h s).balls.length = s.balls.length := by
  simp only [App.update]
  rw [boundaryPhase_length, collisionPhase_length, integratePhase_length, gravityPhase_length]

lemma gravityPhase_radius_color (h : ℝ) (a : Option (ℕ × Point2)) (l : List Ball) (k : ℕ) :
    (getB (gravityPhase h a l) k).radius = (getB l k).radius ∧
    (getB (gravityPhase h a l) k).color = (getB l k).color := by
  rw [getB_gravityPhase]
  split_ifs <;> exact ⟨rfl, rfl⟩

lemma integratePhase_radius_color (a : Option (ℕ × Point2)) (l : List Ball) (k : ℕ) :
    (getB (integratePhase a l) k).radius = (getB l k).radius ∧
    (getB (integratePhase a l) k).color = (getB l k).color := by
  rw [getB_integratePhase]
  split_ifs <;> exact ⟨rfl, rfl⟩

lemma update_radius_color (w h : ℝ) (s : App) (k : ℕ) :
    (getB (App.update w h s).balls k).radius = (getB s.balls k).radius ∧
    (getB (App.update w h s).balls k).color = (getB s.balls k).color := by
  simp only [App.update]
  set l1 := gravityPhase h s.active_ball s.balls with hl1
  set l2 := integratePhase s.active_ball l1 with hl2
  set l3 := collisionPhase s.active_ball l2 with hl3
  have e3 : l3.length = l2.length := collisionPhase_length _ _
  have e2 : l2.length = l1.length := integratePhase_length _ _
  have e1 : l1.length = s.balls.length := gravityPhase_length _ _ _
  by_cases hk : k < s.balls.length
  · have hk3 : k < l3.length := by omega
    rw [getB_boundaryPhase w h l3 k hk3]
    obtain ⟨r3, c3⟩ := collisionPhase_radius_color s.active_ball l2 k
    obtain ⟨r2, c2⟩ := integratePhase_radius_color s.active_ball l1 k
    obtain ⟨r1, c1⟩ := gravityPhase_radius_color h s.active_ball s.balls k
    rw [clampBall_radius, clampBall_color, ← hl3] at *
    constructor
    · rw [r3, r2, r1]
    · rw [c3, c2, c1]
  · have hb : (boundaryPhase w h l3).length ≤ k := by
      rw [boundaryPhase_length]; omega
    rw [getB_oob _ _ hb, getB_oob s.balls k (by omega)]
    exact ⟨rfl, rfl⟩

lemma isActiveBall_self (i : ℕ) (off : Point2) :
    isActiveBall (some (i, off)) i = true := by
  simp [isActiveBall]

lemma update_active_inbounds (w h : ℝ) (s : App) (i : ℕ) (off : Point2)
    (ha : s.active_ball = some (i, off))
    (h1 : ¬ (getB s.balls i).point.x - (getB s.balls i).radius < 0)
    (h2 : ¬ (getB s.balls i).point.x + (getB s.balls i).radius ≥ w)
    (h3 : ¬ (getB s.balls i).point.y + (getB s.balls i).radius ≥ h) :
    getB (App.update w h s).balls i = getB s.balls i := by
  simp only [App.update]
  set l1 := gravityPhase h s.active_ball s.balls with hl1
  set l2 := integratePhase s.active_ball l1 with hl2
  set l3 := collisionPhase s.active_ball l2 with hl3
  have e3 : l3.length = l2.length := collisionPhase_length _ _
  have e2 : l2.length = l1.length := integratePhase_length _ _
  have e1 : l1.length = s.balls.length := gravityPhase_length _ _ _
  have hact : isActiveBall s.active_ball i = true := by rw [ha]; exact isActiveBall_self i off
  have g1 : getB l1 i = getB s.balls i := by
    rw [hl1, getB_gravityPhase]
    rw [if_neg (by simp [hact])]
  have g2 : getB l2 i = getB s.balls i := by
    rw [hl2, getB_integratePhase, if_neg (by simp [hact]), g1]
  have g3 : getB l3 i = getB s.balls i := by
    rw [hl3, collisionPhase_active s.active_ball l2 i hact, g2]
  by_cases hi : i < s.balls.length
  · have hi3 : i < l3.length := by omega
    rw [getB_boundaryPhase w h l3 i hi3, g3]
    exact clampBall_eq_self w h _ h1 h2 h3
  · have hb : (boundaryPhase w h l3).length ≤ i := by
      rw [boundaryPhase_length]; omega
    rw [getB_oob _ _ hb, getB_oob s.balls i (by omega)]

lemma collisionPhase_singleton (a : Option (ℕ × Point2)) (l : List Ball)
    (hl : l.length = 1) : collisionPhase a l = l := by
  unfold collisionPhase
  rw [hl]
  simp [List.range_succ, collideOne, hl]

end UpdateLemmas

lemma getB_lt (l : List Ball) (k : ℕ) (hk : k < l.length) : getB l k = l[k] := by
  unfold getB
  rw [List.getElem?_eq_getElem hk]
  rfl

/-- C1: the spec requires `key(X)` while Dragging to delete the active ball
AND clear `active_ball` in the same transition.  The code (src/app.rs
lines 279-283) removes the ball but never clears `active_ball`: at the
failing input (one ball, being dragged), after `key(X)` the list is empty
while `active_ball` is still `Some((0, offset))`, a dangling index — a
subsequent pointer-motion event indexes `balls[0]` out of bounds. -/
theorem C1_keyX_leaves_dangling_active :
    (App.key_x ⟨[⟨⟨100, 100⟩, 10, ⟨0, 0⟩, 0⟩], some (0, ⟨0, 0⟩)⟩).balls.length = 0 ∧
    (App.key_x ⟨[⟨⟨100, 100⟩, 10, ⟨0, 0⟩, 0⟩], some (0, ⟨0, 0⟩)⟩).active_ball =
      some (0, ⟨0, 0⟩) :=
  ⟨rfl, rfl⟩

/-- C7: `pointer_up` always yields the Idle state (`active_ball = none`),
touches nothing else, is idempotent, and is the identity when already
Idle. -/
theorem C7_pointer_up_idle_idempotent (s : App) :
    (App.mouse_button_up s).active_ball = none ∧
    (App.mouse_button_up s).balls = s.balls ∧
    App.mouse_button_up (App.mouse_button_up s) = App.mouse_button_up s ∧
    (s.active_ball = none → App.mouse_button_up s = s) := by
  refine ⟨rfl, rfl, rfl, fun h => ?_⟩
  cases s with
  | mk balls a =>
    simp only at h
    subst h
    rfl

theorem C7_witness :
    App.mouse_button_up (⟨[], none⟩ : App) = (⟨[], none⟩ : App) :=
  (C7_pointer_up_idle_idempotent ⟨[], none⟩).2.2.2 rfl

/-- C10: one `update` never adds or removes a ball, and leaves every
ball's radius and color exactly as they were (positions and velocities
are the only mutable fields). -/
theorem C10_update_preserves_structure (w h : ℝ) (s : App) (k : ℕ) :
    (App.update w h s).balls.length = s.balls.length ∧
    (getB (App.update w h s).balls k).radius = (getB s.balls k).radius ∧
    (getB (App.update w h s).balls k).color = (getB s.balls k).color :=
  ⟨update_length w h s, (update_radius_color w h s k).1, (update_radius_color w h s k).2⟩

/-- C2 fails as stated: the boundary-clamp loop of `update` (src/app.rs
lines 171-185) iterates over ALL balls, the active one included.  At
this input the active ball sits at `x = 0` with radius 10 in a 100×100
window, and one `update` moves it to `x = 10` although it is being
dragged. -/
theorem C2_counterexample :
    (getB (App.update 100 100
        ⟨[⟨⟨0, 50⟩, 10, ⟨0, 0⟩, 0⟩], some (0, ⟨0, 0⟩)⟩).balls 0).point.x = 10 ∧
    (getB ((⟨[⟨⟨0, 50⟩, 10, ⟨0, 0⟩, 0⟩], some (0, ⟨0, 0⟩)⟩ : App)).balls 0).point.x = 0 := by
  constructor
  · norm_num [App.update, gravityPhase, integratePhase, idxLoop, boundaryPhase,
      collisionPhase, isActiveBall, List.range_succ, getB, clampBall]
  · rfl

/-- C2 (amended): while a ball is active, one `update` leaves it exactly
unchanged — it is exempt from the gravity, integration and pairwise
collision phases — PROVIDED it lies strictly inside the walls and above
the floor; the boundary-clamp phase is the one physics phase that still
applies to the active ball. -/
theorem C2_active_ball_step_unchanged (w h : ℝ) (s : App) (i : ℕ) (off : Point2)
    (ha : s.active_ball = some (i, off))
    (hx1 : ¬ (getB s.balls i).point.x - (getB s.balls i).radius < 0)
    (hx2 : ¬ (getB s.balls i).point.x + (getB s.balls i).radius ≥ w)
    (hy : ¬ (getB s.balls i).point.y + (getB s.balls i).radius ≥ h) :
    getB (App.update w h s).balls i = getB s.balls i :=
  update_active_inbounds w h s i off ha hx1 hx2 hy

theorem C2_witness :
    getB (App.update 200 200
        ⟨[⟨⟨50, 50⟩, 10, ⟨1, 2⟩, 5⟩], some (0, ⟨3, 4⟩)⟩).balls 0 =
      getB ((⟨[⟨⟨50, 50⟩, 10, ⟨1, 2⟩, 5⟩], some (0, ⟨3, 4⟩)⟩ : App)).balls 0 :=
  C2_active_ball_step_unchanged 200 200 _ 0 ⟨3, 4⟩ rfl
    (by rw [getB_singleton]; norm_num)
    (by rw [getB_singleton]; norm_num)
    (by rw [getB_singleton]; norm_num)

/-- C4: after any `update`, every ball satisfies
`radius ≤ x ≤ width − radius` and `y ≤ height − radius` (side walls and
floor clamped; no ceiling), given that every ball's diameter fits in the
window. -/
theorem C4_after_step_in_bounds (w h : ℝ) (s : App)
    (hfit : ∀ b ∈ s.balls, 2 * b.radius ≤ w ∧ 2 * b.radius ≤ h) :
    ∀ b ∈ (App.update w h s).balls,
      b.radius ≤ b.point.x ∧ b.point.x ≤ w - b.radius ∧ b.point.y ≤ h - b.radius := by
  intro b hb
  simp only [App.update] at hb
  set l1 := gravityPhase h s.active_ball s.balls with hl1
  set l2 := integratePhase s.active_ball l1 with hl2
  set l3 := collisionPhase s.active_ball l2 with hl3
  have e3 : l3.length = l2.length := collisionPhase_length _ _
  have e2 : l2.length = l1.length := integratePhase_length _ _
  have e1 : l1.length = s.balls.length := gravityPhase_length _ _ _
  unfold boundaryPhase at hb
  rcases List.mem_map.mp hb with ⟨b1, hb1, rfl⟩
  rcases List.getElem_of_mem hb1 with ⟨k, hk, hbk⟩
  have hk0 : k < s.balls.length := by omega
  have hrad : b1.radius = (getB s.balls k).radius := by
    rw [← hbk, ← getB_lt l3 k hk]
    rw [(collisionPhase_radius_color s.active_ball l2 k).1,
        (integratePhase_radius_color s.active_ball l1 k).1,
        (gravityPhase_radius_color h s.active_ball s.balls k).1]
  have hmem : getB s.balls k ∈ s.balls := by
    rw [getB_lt s.balls k hk0]
    exact List.getElem_mem hk0
  have hw : 2 * b1.radius ≤ w := by
    rw [hrad]
    exact (hfit _ hmem).1
  have hbnd := clampBall_bounds w h b1 hw
  rw [clampBall_radius]
  exact hbnd

theorem C4_witness :
    (∀ b ∈ ([⟨⟨300, 300⟩, 10, ⟨0, 0⟩, 0⟩] : List Ball),
        2 * b.radius ≤ 600 ∧ 2 * b.radius ≤ (600:ℝ)) ∧
    ∀ b ∈ (App.update 600 600 ⟨[⟨⟨300, 300⟩, 10, ⟨0, 0⟩, 0⟩], none⟩).balls,
      b.radius ≤ b.point.x ∧ b.point.x ≤ 600 - b.radius ∧ b.point.y ≤ 600 - b.radius := by
  have hfit : ∀ b ∈ ([⟨⟨300, 300⟩, 10, ⟨0, 0⟩, 0⟩] : List Ball),
      2 * b.radius ≤ (600:ℝ) ∧ 2 * b.radius ≤ (600:ℝ) := by
    intro b hb
    rw [List.mem_singleton] at hb
    subst hb
    norm_num
  exact ⟨hfit, C4_after_step_in_bounds 600 600 ⟨[⟨⟨300, 300⟩, 10, ⟨0, 0⟩, 0⟩], none⟩ hfit⟩

/-- C9: after `key(R)` the state is a fresh one: exactly 10 balls, each
one placed (by the `gen_range` bounds of `Ball::new_random`) so that it
fits entirely within the current window, and no active ball — whatever
the prior ball count or drag state. -/
theorem C9_reset_fresh_state (w h : ℝ) (s : App) (gs : Fin 10 → RandBall)
    (hgs : ∀ i, (gs i).inRange w h) :
    (App.key_r s gs).balls.length = 10 ∧
    (App.key_r s gs).active_ball = none ∧
    ∀ b ∈ (App.key_r s gs).balls,
      b.radius ≤ b.point.x ∧ b.point.x ≤ w - b.radius ∧
      b.radius ≤ b.point.y ∧ b.point.y ≤ h - b.radius := by
  refine ⟨?_, rfl, ?_⟩
  · show (sort_balls_by_size _).length = 10
    rw [length_sort_balls_by_size, List.length_map, List.length_ofFn]
  · intro b hb
    have hb2 : b ∈ (List.ofFn gs).map Ball.new_random :=
      (mem_sort_balls_by_size _ b).mp hb
    rcases List.mem_map.mp hb2 with ⟨g, hg, rfl⟩
    rcases (List.mem_ofFn gs g).mp hg with ⟨i, rfl⟩
    obtain ⟨_, _, h3, h4, h5, h6⟩ := hgs i
    exact ⟨h3, le_of_lt h4, h5, le_of_lt h6⟩

theorem C9_witness :
    (∀ i : Fin 10, ((fun _ => (⟨10, 20, 20, 0⟩ : RandBall)) i).inRange 600 600) ∧
    ((App.key_r ⟨[], some (5, ⟨1, 1⟩)⟩ (fun _ => ⟨10, 20, 20, 0⟩)).balls.length = 10 ∧
     (App.key_r ⟨[], some (5, ⟨1, 1⟩)⟩ (fun _ => ⟨10, 20, 20, 0⟩)).active_ball = none ∧
     ∀ b ∈ (App.key_r ⟨[], some (5, ⟨1, 1⟩)⟩ (fun _ => ⟨10, 20, 20, 0⟩)).balls,
       b.radius ≤ b.point.x ∧ b.point.x ≤ 600 - b.radius ∧
       b.radius ≤ b.point.y ∧ b.point.y ≤ 600 - b.radius) := by
  have hgs : ∀ i : Fin 10, ((fun _ => (⟨10, 20, 20, 0⟩ : RandBall)) i).inRange 600 600 := by
    intro i
    refine ⟨by norm_num, by norm_num, by norm_num, by norm_num, by norm_num, by norm_num⟩
  exact ⟨hgs, C9_reset_fresh_state 600 600 ⟨[], some (5, ⟨1, 1⟩)⟩ _ hgs⟩

/-- C8: the ball list is kept sorted largest-to-smallest by radius: it is
sorted after initial construction (`App::new`), after every `key(Space)`
insertion (`add_ball` re-sorts), and sortedness is preserved by `key(X)`
deletion and restored by `key(R)` reset. -/
theorem C8_sorted_invariant (s : App) (b : Ball) (g : RandBall) (gs : Fin 10 → RandBall)
    (hs : sortedBySize s.balls) :
    sortedBySize (App.new gs).balls ∧
    sortedBySize (s.add_ball b).balls ∧
    sortedBySize (App.key_space s g).balls ∧
    sortedBySize (App.key_x s).balls ∧
    sortedBySize (App.key_r s gs).balls := by
  refine ⟨sorted_sort_balls_by_size _, sorted_sort_balls_by_size _,
    sorted_sort_balls_by_size _, ?_, sorted_sort_balls_by_size _⟩
  unfold App.key_x
  cases ha : s.active_ball with
  | none => exact hs
  | some p =>
    obtain ⟨i, off⟩ := p
    exact sortedBySize_eraseIdx s.balls i hs

theorem C8_witness :
    sortedBySize ((⟨[], none⟩ : App).balls) ∧
    (sortedBySize (App.new (fun _ => ⟨10, 20, 20, 0⟩)).balls ∧
     sortedBySize ((⟨[], none⟩ : App).add_ball ⟨⟨0, 0⟩, 10, ⟨0, 0⟩, 0⟩).balls ∧
     sortedBySize (App.key_space ⟨[], none⟩ ⟨10, 20, 20, 0⟩).balls ∧
     sortedBySize (App.key_x ⟨[], none⟩).balls ∧
     sortedBySize (App.key_r ⟨[], none⟩ (fun _ => ⟨10, 20, 20, 0⟩)).balls) :=
  ⟨List.Pairwise.nil,
   C8_sorted_invariant ⟨[], none⟩ ⟨⟨0, 0⟩, 10, ⟨0, 0⟩, 0⟩ ⟨10, 20, 20, 0⟩
     (fun _ => ⟨10, 20, 20, 0⟩) List.Pairwise.nil⟩

/-- C6: the pointer-down hit test: `ball_at` returns `none` exactly when
the point is outside every ball's circle; otherwise it returns an index
`i` whose ball contains the point, and — the list being sorted
largest-to-smallest — that ball has minimal radius among all balls
containing the point (it is the last containing ball in list order). -/
theorem C6_ball_at_hit_test (l : List Ball) (x y : ℝ) :
    (ball_at l x y = none ↔ ∀ i, i < l.length → ¬ (getB l i).collides_point ⟨x, y⟩) ∧
    (∀ i, ball_at l x y = some i →
      i < l.length ∧ (getB l i).collides_point ⟨x, y⟩ ∧
      (sortedBySize l → ∀ j, j < l.length → (getB l j).collides_point ⟨x, y⟩ →
        (getB l i).radius ≤ (getB l j).radius)) := by
  constructor
  · exact ball_at_aux_none _ l.length
  · intro i hi
    obtain ⟨h1, h2, h3⟩ := ball_at_aux_some _ l.length i hi
    refine ⟨h1, h2, fun hsort j hj hcp => ?_⟩
    have hji : j ≤ i := by
      by_contra hc
      exact h3 j (Nat.lt_of_not_le hc) hj hcp
    rcases Nat.lt_or_eq_of_le hji with hlt | heq
    · have hp := List.pairwise_iff_getElem.mp hsort j i hj h1 hlt
      rw [getB_lt l i h1, getB_lt l j hj]
      exact hp
    · subst heq
      exact le_refl _

open Classical in
lemma ball_at_aux_succ (P : ℕ → Prop) (n : ℕ) :
    ball_at_aux P (n + 1) = if P n then some n else ball_at_aux P n := rfl

theorem C6_witness :
    ball_at [⟨⟨0, 0⟩, 10, ⟨0, 0⟩, 0⟩] 0 0 = some 0 ∧
    (getB [⟨⟨0, 0⟩, 10, ⟨0, 0⟩, 0⟩] 0).collides_point ⟨0, 0⟩ := by
  have h0 : (getB [(⟨⟨0, 0⟩, 10, ⟨0, 0⟩, 0⟩ : Ball)] 0).collides_point ⟨0, 0⟩ := by
    show Real.sqrt _ ≤ _
    norm_num [getB, Real.sqrt_zero]
  have hsome : ball_at [(⟨⟨0, 0⟩, 10, ⟨0, 0⟩, 0⟩ : Ball)] 0 0 = some 0 := by
    show ball_at_aux _ (0 + 1) = some 0
    rw [ball_at_aux_succ, if_pos h0]
  exact ⟨hsome, ((C6_ball_at_hit_test [⟨⟨0, 0⟩, 10, ⟨0, 0⟩, 0⟩] 0 0).2 0 hsome).2.1⟩

/-- C5: a single non-active ball resting one unit below the floor line
(`y = height − radius + 1`) with downward velocity 10 is, after one
`update`, clamped to `y = height − radius` with a strictly negative
vertical velocity (reflected by `−bounce_amount`, scaled by the mass
falloff `get_bounce_amount`). -/
theorem C5_floor_bounce (w h r px vx : ℝ) (c : ℕ) :
    (getB (App.update w h ⟨[⟨⟨px, h - r + 1⟩, r, ⟨vx, 10⟩, c⟩], none⟩).balls 0).point.y
      = h - r ∧
    (getB (App.update w h ⟨[⟨⟨px, h - r + 1⟩, r, ⟨vx, 10⟩, c⟩], none⟩).balls 0).velocity.y
      < 0 := by
  set b : Ball := ⟨⟨px, h - r + 1⟩, r, ⟨vx, 10⟩, c⟩ with hb
  simp only [App.update]
  set l1 := gravityPhase h (none : Option (ℕ × Point2)) [b] with hl1
  set l2 := integratePhase (none : Option (ℕ × Point2)) l1 with hl2
  have e1 : l1.length = 1 := by
    rw [hl1, gravityPhase_length]
    rfl
  have e2 : l2.length = 1 := by rw [hl2, integratePhase_length, e1]
  have g1 : getB l1 0 = b := by
    rw [hl1, getB_gravityPhase]
    have hcond : ¬((getB [b] 0).point.y + (getB [b] 0).radius < h) := by
      show ¬(h - r + 1 + r < h)
      intro hcon
      linarith
    rw [if_pos ⟨by simp, rfl⟩, if_neg hcond, getB_singleton]
  have g2 : getB l2 0 = ⟨⟨px + vx, h - r + 1 + 10⟩, r, ⟨vx, 10⟩, c⟩ := by
    rw [hl2, getB_integratePhase, if_pos ⟨by omega, rfl⟩, g1, hb]
  have hfin : getB (boundaryPhase w h (collisionPhase none l2)) 0
      = clampBall w h (getB l2 0) := by
    rw [collisionPhase_singleton none l2 e2]
    exact getB_boundaryPhase w h l2 0 (by omega)
  rw [hfin, g2]
  set b2 : Ball := ⟨⟨px + vx, h - r + 1 + 10⟩, r, ⟨vx, 10⟩, c⟩ with hb2
  have hy : b2.point.y + b2.radius ≥ h := by
    show h - r + 1 + 10 + r ≥ h
    linarith
  obtain ⟨hp, hv⟩ := clampBall_y_floor w h b2 hy
  constructor
  · rw [hp]
  · rw [hv]
    have hgba := get_bounce_amount_pos b2
    have hv10 : b2.velocity.y = 10 := rfl
    rw [hv10]
    have hneg : -(0.5 : ℝ) * b2.get_bounce_amount < 0 :=
      mul_neg_of_neg_of_pos (by norm_num) hgba
    exact mul_neg_of_pos_of_neg (by norm_num) hneg

section TwoBallScenario

lemma sqrt225 : Real.sqrt 225 = 15 := by
  rw [show (225:ℝ) = 15 ^ 2 by norm_num, Real.sqrt_sq (by norm_num)]

lemma sqrt324 : Real.sqrt 324 = 18 := by
  rw [show (324:ℝ) = 18 ^ 2 by norm_num, Real.sqrt_sq (by norm_num)]

lemma gba_ten (b : Ball) (h : b.radius = 10) : b.get_bounce_amount = 1 := by
  unfold Ball.get_bounce_amount
  rw [h, show (10:ℝ) * 0.05 = 0.5 by norm_num,
    max_eq_right (by norm_num : (0.5:ℝ) ≤ 1)]
  norm_num

lemma c3_eval_orig :
    (App.update 800 600
        ⟨[⟨⟨0, 0⟩, 10, ⟨0, 0⟩, 0⟩, ⟨⟨15, 0⟩, 10, ⟨0, 0⟩, 0⟩], none⟩).balls
      = [⟨⟨10, 0.5⟩, 10, ⟨0.125, 0.5⟩, 0⟩, ⟨⟨16.2, 0.5⟩, 10, ⟨0.1, 0.5⟩, 0⟩] := by
  have h1 : gravityPhase 600 (none : Option (ℕ × Point2))
      [⟨⟨0, 0⟩, 10, ⟨0, 0⟩, 0⟩, ⟨⟨15, 0⟩, 10, ⟨0, 0⟩, 0⟩]
      = [⟨⟨0, 0⟩, 10, ⟨0, 0.5⟩, 0⟩, ⟨⟨15, 0⟩, 10, ⟨0, 0.5⟩, 0⟩] := by
    norm_num [gravityPhase, idxLoop, isActiveBall, List.range_succ, getB]
  have h2 : integratePhase (none : Option (ℕ × Point2))
      [⟨⟨0, 0⟩, 10, ⟨0, 0.5⟩, 0⟩, ⟨⟨15, 0⟩, 10, ⟨0, 0.5⟩, 0⟩]
      = [⟨⟨0, 0.5⟩, 10, ⟨0, 0.5⟩, 0⟩, ⟨⟨15, 0.5⟩, 10, ⟨0, 0.5⟩, 0⟩] := by
    norm_num [integratePhase, idxLoop, isActiveBall, List.range_succ, getB]
  have h3 : collisionPhase (none : Option (ℕ × Point2))
      [⟨⟨0, 0.5⟩, 10, ⟨0, 0.5⟩, 0⟩, ⟨⟨15, 0.5⟩, 10, ⟨0, 0.5⟩, 0⟩]
      = [⟨⟨-3, 0.5⟩, 10, ⟨-0.25, 0.5⟩, 0⟩, ⟨⟨16.2, 0.5⟩, 10, ⟨0.1, 0.5⟩, 0⟩] := by
    norm_num [collisionPhase, collideOne, isActiveBall, List.range_succ, getB,
      Ball.collides, Ball.move_from, gba_ten, sqrt225, sqrt324]
  have h4 : boundaryPhase 800 600
      [⟨⟨-3, 0.5⟩, 10, ⟨-0.25, 0.5⟩, 0⟩, ⟨⟨16.2, 0.5⟩, 10, ⟨0.1, 0.5⟩, 0⟩]
      = [⟨⟨10, 0.5⟩, 10, ⟨0.125, 0.5⟩, 0⟩, ⟨⟨16.2, 0.5⟩, 10, ⟨0.1, 0.5⟩, 0⟩] := by
    norm_num [boundaryPhase, clampBall, gba_ten]
  simp only [App.update]
  rw [h1, h2, h3, h4]

lemma c3_eval_shifted :
    (App.update 800 600
        ⟨[⟨⟨100, 0⟩, 10, ⟨0, 0⟩, 0⟩, ⟨⟨115, 0⟩, 10, ⟨0, 0⟩, 0⟩], none⟩).balls
      = [⟨⟨97, 0.5⟩, 10, ⟨-0.25, 0.5⟩, 0⟩, ⟨⟨116.2, 0.5⟩, 10, ⟨0.1, 0.5⟩, 0⟩] := by
  have h1 : gravityPhase 600 (none : Option (ℕ × Point2))
      [⟨⟨100, 0⟩, 10, ⟨0, 0⟩, 0⟩, ⟨⟨115, 0⟩, 10, ⟨0, 0⟩, 0⟩]
      = [⟨⟨100, 0⟩, 10, ⟨0, 0.5⟩, 0⟩, ⟨⟨115, 0⟩, 10, ⟨0, 0.5⟩, 0⟩] := by
    norm_num [gravityPhase, idxLoop, isActiveBall, List.range_succ, getB]
  have h2 : integratePhase (none : Option (ℕ × Point2))
      [⟨⟨100, 0⟩, 10, ⟨0, 0.5⟩, 0⟩, ⟨⟨115, 0⟩, 10, ⟨0, 0.5⟩, 0⟩]
      = [⟨⟨100, 0.5⟩, 10, ⟨0, 0.5⟩, 0⟩, ⟨⟨115, 0.5⟩, 10, ⟨0, 0.5⟩, 0⟩] := by
    norm_num [integratePhase, idxLoop, isActiveBall, List.range_succ, getB]
  have h3 : collisionPhase (none : Option (ℕ × Point2))
      [⟨⟨100, 0.5⟩, 10, ⟨0, 0.5⟩, 0⟩, ⟨⟨115, 0.5⟩, 10, ⟨0, 0.5⟩, 0⟩]
      = [⟨⟨97, 0.5⟩, 10, ⟨-0.25, 0.5⟩, 0⟩, ⟨⟨116.2, 0.5⟩, 10, ⟨0.1, 0.5⟩, 0⟩] := by
    norm_num [collisionPhase, collideOne, isActiveBall, List.range_succ, getB,
      Ball.collides, Ball.move_from, gba_ten, sqrt225, sqrt324]
  have h4 : boundaryPhase 800 600
      [⟨⟨97, 0.5⟩, 10, ⟨-0.25, 0.5⟩, 0⟩, ⟨⟨116.2, 0.5⟩, 10, ⟨0.1, 0.5⟩, 0⟩]
      = [⟨⟨97, 0.5⟩, 10, ⟨-0.25, 0.5⟩, 0⟩, ⟨⟨116.2, 0.5⟩, 10, ⟨0.1, 0.5⟩, 0⟩] := by
    norm_num [boundaryPhase, clampBall, gba_ten]
  simp only [App.update]
  rw [h1, h2, h3, h4]

end TwoBallScenario

/-- C3 fails as stated: in the spec's scenario the ball at (0, 0) with
radius 10 overlaps the left wall, so the boundary clamp of the same
`update` throws it back to `x = 10` — toward the other ball.  In the
800×600 window the centers end at `x = 10` and `x = 16.2`: their
distance drops from 15 to 6.2 (it strictly DECREASES), and ball 0's
horizontal displacement (0 → 10) is toward ball 1, not away. -/
theorem C3_counterexample :
    Real.sqrt
        (((getB (App.update 800 600
            ⟨[⟨⟨0, 0⟩, 10, ⟨0, 0⟩, 0⟩, ⟨⟨15, 0⟩, 10, ⟨0, 0⟩, 0⟩], none⟩).balls 1).point.x -
          (getB (App.update 800 600
            ⟨[⟨⟨0, 0⟩, 10, ⟨0, 0⟩, 0⟩, ⟨⟨15, 0⟩, 10, ⟨0, 0⟩, 0⟩], none⟩).balls 0).point.x) ^ 2 +
         ((getB (App.update 800 600
            ⟨[⟨⟨0, 0⟩, 10, ⟨0, 0⟩, 0⟩, ⟨⟨15, 0⟩, 10, ⟨0, 0⟩, 0⟩], none⟩).balls 1).point.y -
          (getB (App.update 800 600
            ⟨[⟨⟨0, 0⟩, 10, ⟨0, 0⟩, 0⟩, ⟨⟨15, 0⟩, 10, ⟨0, 0⟩, 0⟩], none⟩).balls 0).point.y) ^ 2)
      < Real.sqrt (((15:ℝ) - 0) ^ 2 + ((0:ℝ) - 0) ^ 2) ∧
    (getB (App.update 800 600
        ⟨[⟨⟨0, 0⟩, 10, ⟨0, 0⟩, 0⟩, ⟨⟨15, 0⟩, 10, ⟨0, 0⟩, 0⟩], none⟩).balls 0).point.x
      > 0 := by
  rw [c3_eval_orig]
  constructor
  · have key : Real.sqrt (((16.2:ℝ) - 10) ^ 2 + ((0.5:ℝ) - 0.5) ^ 2)
        < Real.sqrt (((15:ℝ) - 0) ^ 2 + ((0:ℝ) - 0) ^ 2) := by
      rw [show (((16.2:ℝ) - 10) ^ 2 + ((0.5:ℝ) - 0.5) ^ 2) = 38.44 by norm_num,
          show (((15:ℝ) - 0) ^ 2 + ((0:ℝ) - 0) ^ 2) = 225 by norm_num]
      exact Real.sqrt_lt_sqrt (by norm_num) (by norm_num)
    exact key
  · exact (by norm_num : (10:ℝ) > 0)

/-- C3 (amended): the spec's two-ball separation scenario holds once it
is placed clear of the walls: with centers (100, 0) and (115, 0),
radius 10 each (overlap 5), zero velocities and no active ball in an
800×600 window, one `update` strictly increases the distance between
the centers (15 → 19.2), and each ball's horizontal displacement is
directed away from the other (ball 0: 100 → 97; ball 1: 115 → 116.2). -/
theorem C3_separation_clear_of_walls :
    Real.sqrt
        (((getB (App.update 800 600
            ⟨[⟨⟨100, 0⟩, 10, ⟨0, 0⟩, 0⟩, ⟨⟨115, 0⟩, 10, ⟨0, 0⟩, 0⟩], none⟩).balls 1).point.x -
          (getB (App.update 800 600
            ⟨[⟨⟨100, 0⟩, 10, ⟨0, 0⟩, 0⟩, ⟨⟨115, 0⟩, 10, ⟨0, 0⟩, 0⟩], none⟩).balls 0).point.x) ^ 2 +
         ((getB (App.update 800 600
            ⟨[⟨⟨100, 0⟩, 10, ⟨0, 0⟩, 0⟩, ⟨⟨115, 0⟩, 10, ⟨0, 0⟩, 0⟩], none⟩).balls 1).point.y -
          (getB (App.update 800 600
            ⟨[⟨⟨100, 0⟩, 10, ⟨0, 0⟩, 0⟩, ⟨⟨115, 0⟩, 10, ⟨0, 0⟩, 0⟩], none⟩).balls 0).point.y) ^ 2)
      > Real.sqrt (((115:ℝ) - 100) ^ 2 + ((0:ℝ) - 0) ^ 2) ∧
    (getB (App.update 800 600
        ⟨[⟨⟨100, 0⟩, 10, ⟨0, 0⟩, 0⟩, ⟨⟨115, 0⟩, 10, ⟨0, 0⟩, 0⟩], none⟩).balls 0).point.x
      < 100 ∧
    (getB (App.update 800 600
        ⟨[⟨⟨100, 0⟩, 10, ⟨0, 0⟩, 0⟩, ⟨⟨115, 0⟩, 10, ⟨0, 0⟩, 0⟩], none⟩).balls 1).point.x
      > 115 := by
  rw [c3_eval_shifted]
  refine ⟨?_, ?_, ?_⟩
  · have key : Real.sqrt (((115:ℝ) - 100) ^ 2 + ((0:ℝ) - 0) ^ 2)
        < Real.sqrt (((116.2:ℝ) - 97) ^ 2 + ((0.5:ℝ) - 0.5) ^ 2) := by
      rw [show (((116.2:ℝ) - 97) ^ 2 + ((0.5:ℝ) - 0.5) ^ 2) = 368.64 by norm_num,
          show (((115:ℝ) - 100) ^ 2 + ((0:ℝ) - 0) ^ 2) = 225 by norm_num]
      exact Real.sqrt_lt_sqrt (by norm_num) (by norm_num)
    exact key
  · exact (by norm_num : (97:ℝ) < 100)
  · exact (by norm_num : (116.2:ℝ) > 115)
